import Mathlib

/-!
Verification of the nat2 address-mapping engine (koho/nat2).

This file shallowly embeds the parts of the Rust source that the verified
properties are about:

* `src/src/watcher/mod.rs` — `format_value`, `dns::validate`,
  `dns::split_domain_name`;
* `src/src/watcher/cf.rs`, `alidns.rs`, `dnspod.rs` — the `validate`
  implementations and the `SRV` / `SVCB` value parsers;
* `src/src/upnp.rs` — `PortMap`, `add_port`, `renew_port`;
* `src/src/mapper.rs` — the supervisor loop body (`Mapper::changed`,
  dedup condition, notifier walk with failure cursor);
* `src/src/client/tcp.rs` — `new_connection`, `map_address`, and the
  keepalive inner loop of the worker as a step machine;
* `src/src/client/udp.rs` — the worker select loop as a step machine;
* `src/src/client/mod.rs` — the builder defaults and guarded setters.

Rust strings are modelled as their character sequences (`List Char`);
machine integers as `Nat` / `Int` (the widths never overflow in the
modelled code paths); fallible operations as `Option` / `Except`;
the effects of a select loop iteration as a pure step function from a
state and an input event to a new state plus a list of observable
outputs (log lines, channel sends).
-/

namespace Nat2

/-- Character strings: a Rust `String` / `&str` as its character sequence. -/
abbrev Str := List Char

/-! ## String primitives used by the watcher module -/

/-- Rust `str::replace` for a non-empty pattern: replace every
leftmost non-overlapping occurrence of `pat` by `rep`, scanning left to
right.  (`format_value` in `src/src/watcher/mod.rs` only ever calls it
with the non-empty patterns `"\x7bip\x7d"` and `"\x7bport\x7d"`.) -/
def replaceAll (pat rep : Str) : Str → Str
  | [] => []
  | c :: rest =>
    if pat ≠ [] ∧ pat.isPrefixOf (c :: rest) then
      rep ++ replaceAll pat rep (rest.drop (pat.length - 1))
    else
      c :: replaceAll pat rep rest
termination_by s => s.length
decreasing_by
  · simp only [List.length_drop, List.length_cons]
    omega
  · simp

/-- Rust `str::contains` with a string pattern: `pat` occurs as a
contiguous substring of `s`. -/
def containsSub (pat : Str) : Str → Bool
  | [] => pat.isEmpty
  | c :: rest => pat.isPrefixOf (c :: rest) || containsSub pat rest

/-- An IPv4 address as four octets (the `ip` of a
`stun::xoraddr::XorMappedAddress`; the engine is IPv4-only). -/
structure Ipv4 where
  o1 : Nat
  o2 : Nat
  o3 : Nat
  o4 : Nat
deriving DecidableEq, Repr

/-- `Ipv4Addr::to_string`: dotted-decimal rendering. -/
def Ipv4.toStr (ip : Ipv4) : Str :=
  (Nat.repr ip.o1).toList ++ '.' :: (Nat.repr ip.o2).toList
    ++ '.' :: (Nat.repr ip.o3).toList ++ '.' :: (Nat.repr ip.o4).toList

/-- `stun::xoraddr::XorMappedAddress`: the mapped public address, an
IPv4 address plus a port. -/
structure XorMappedAddress where
  ip : Ipv4
  port : Nat
deriving DecidableEq, Repr

/-- The literal pattern `"\x7bip\x7d"`. -/
def patIp : Str := "\x7bip\x7d".toList

/-- The literal pattern `"\x7bport\x7d"`. -/
def patPort : Str := "\x7bport\x7d".toList

/-- `format_value` (src/src/watcher/mod.rs, lines 26-31): replace the
`ip` and `port` placeholder tokens with the actual address values,
first the ip token and then the port token. -/
def format_value (value : Str) (addr : XorMappedAddress) : Str :=
  replaceAll patPort (Nat.repr addr.port).toList
    (replaceAll patIp addr.ip.toStr value)

/-- Rust `str::split` with a single-character separator, e.g.
`domain.split(".")` in `split_domain_name`: the list of chunks between
separators.  The result is never empty. -/
def splitChar (sep : Char) : Str → List Str
  | [] => [[]]
  | c :: rest =>
    if c = sep then [] :: splitChar sep rest
    else
      match splitChar sep rest with
      | [] => [[c]]
      | g :: gs => (c :: g) :: gs

/-- `split_domain_name` (src/src/watcher/mod.rs, lines 56-68): split a
domain into the SLD (last two labels) and the leading subdomain.  A
single trailing empty label (trailing dot) is removed first; fewer than
two labels, or an empty label in one of the last two positions, gives
`none`. -/
def split_domain_name (domain : Str) : Option (Str × Str) :=
  let labels := splitChar '.' domain
  let labels := if labels.getLast? = some [] then labels.dropLast else labels
  let len := labels.length
  if len < 2 then none
  else if (labels.getD (len - 1) []).isEmpty || (labels.getD (len - 2) []).isEmpty then
    none
  else
    some (List.intercalate ['.'] (labels.drop (len - 2)),
      List.intercalate ['.'] (labels.take (len - 2)))

/-- The label list `split_domain_name` works on: split on dots, with a
single trailing empty label (trailing dot) removed. -/
def domainLabels (d : Str) : List Str :=
  if (splitChar '.' d).getLast? = some [] then (splitChar '.' d).dropLast
  else splitChar '.' d

/-! ## Watcher metadata validation (src/src/watcher) -/

/-- `config::Metadata` (src/src/config.rs): the per-watcher payload.
`kind` is the `type` field (serde-renamed in the source). -/
structure Metadata where
  name : Str
  value : Str
  domain : Option Str
  kind : Option Str
  priority : Option Nat
  rid : Option Str
  ttl : Option Nat
deriving DecidableEq, Repr

/-- `dns::validate` (src/src/watcher/mod.rs, lines 38-53): shared DNS
metadata validation.  `to_lowercase` is modelled as per-character ASCII
lowercasing (all compared literals are ASCII). -/
def dns_validate (md : Metadata) : Except Str Unit :=
  match md.domain with
  | none => .error "missing field `domain`".toList
  | some domain =>
    match md.kind with
    | none => .error "missing field `type`".toList
    | some kind =>
      if (kind.map Char.toLower = "svcb".toList
            ∨ kind.map Char.toLower = "https".toList)
          ∧ md.priority = none then
        .error "missing field `priority`".toList
      else
        match split_domain_name domain with
        | none => .error "invalid domain character".toList
        | some _ => .ok ()

/-- Digit-run parser: the digits part of Rust `str::parse` for unsigned
integers (nonempty, all ASCII digits). -/
def parseNatDigits (s : Str) : Option Nat :=
  if s ≠ [] ∧ s.all Char.isDigit then
    some (s.foldl (fun a c => a * 10 + (c.toNat - 48)) 0)
  else none

/-- Rust `str::parse` for an unsigned integer type with maximum value
`bound`: an optional leading plus sign, a nonempty digit run, and a
range check. -/
def parseUInt (bound : Nat) (s : Str) : Option Nat :=
  let t := match s with
    | '+' :: rest => rest
    | _ => s
  match parseNatDigits t with
  | none => none
  | some n => if n ≤ bound then some n else none

/-- `str::parse::<u16>`. -/
def parseU16 : Str → Option Nat := parseUInt 65535

/-- `str::parse::<u64>` (used on `rid` by the DNSPod validate). -/
def parseU64 : Str → Option Nat := parseUInt (2 ^ 64 - 1)

/-- The `SRV` record payload of src/src/watcher/cf.rs. -/
structure SRV where
  port : Nat
  priority : Nat
  target : Str
  weight : Nat
deriving DecidableEq, Repr

/-- `TryFrom<String> for SRV` (src/src/watcher/cf.rs, lines 343-363):
parse `priority weight port target`, ignoring empty chunks from
repeated spaces. -/
def SRV.tryFrom (value : Str) : Except Str SRV :=
  match (splitChar ' ' value).filter (fun v => v.length > 0) with
  | [p, w, pt, t] =>
    match parseU16 p, parseU16 w, parseU16 pt with
    | some priority, some weight, some port =>
      .ok ⟨port, priority, t, weight⟩
    | _, _, _ => .error "invalid digit found in string".toList
  | _ => .error "invalid value format (e.g. `priority weight port target`)".toList

/-- The `SVCB` record payload of src/src/watcher/cf.rs. -/
structure SVCB where
  priority : Nat
  target : Str
  value : Str
deriving DecidableEq, Repr

/-- ASCII whitespace, the fragment of `char::is_whitespace` exercised
by the modelled inputs. -/
def isWhitespaceChar (c : Char) : Bool :=
  c = ' ' ∨ c = '\t' ∨ c = '\n' ∨ c = '\r'

/-- Rust `str::trim`. -/
def trimStr (s : Str) : Str :=
  ((s.dropWhile isWhitespaceChar).reverse.dropWhile isWhitespaceChar).reverse

/-- Rust `str::split_once(" ")`: split at the first space, if any. -/
def splitOnceSpace : Str → Option (Str × Str)
  | [] => none
  | c :: rest =>
    if c = ' ' then some ([], rest)
    else
      match splitOnceSpace rest with
      | some (a, b) => some (c :: a, b)
      | none => none

/-- `TryFrom<(u16, String)> for SVCB` (src/src/watcher/cf.rs, lines
367-382): trim, then split target from the key-value pairs at the
first space. -/
def SVCB.tryFrom (priority : Nat) (value : Str) : Except Str SVCB :=
  match splitOnceSpace (trimStr value) with
  | none => .error "invalid value format (e.g. `target key-value-pairs`)".toList
  | some (target, pairs) => .ok ⟨priority, target, trimStr pairs⟩

/-- `TYPES` (src/src/watcher/cf.rs, lines 15-17): the record types the
Cloudflare watcher supports. -/
def TYPES : List Str :=
  ["A", "AAAA", "CNAME", "HTTPS", "MX", "SRV", "SVCB", "TXT", "URI"].map
    String.toList

/-- `Cloudflare::validate` (src/src/watcher/cf.rs, lines 314-338).  The
source unwraps `md.kind` after `dns::validate` has guaranteed it is
present; the model uses `getD []`, which agrees on every input that
reaches the unwrap. -/
def cf_validate (md : Metadata) : Except Str Unit :=
  match dns_validate md with
  | .error e => .error e
  | .ok _ =>
    if ¬ TYPES.contains ((md.kind.getD []).map Char.toUpper) then
      .error "unsupported record type".toList
    else if (md.kind.getD []).map Char.toUpper = "URI".toList
        ∧ md.priority = none then
      .error "missing field `priority`".toList
    else if (md.kind.getD []).map Char.toUpper = "SRV".toList then
      match SRV.tryFrom (format_value md.value ⟨⟨1, 1, 1, 1⟩, 1111⟩) with
      | .error e => .error e
      | .ok _ => .ok ()
    else if (md.kind.getD []).map Char.toUpper = "HTTPS".toList
        ∨ (md.kind.getD []).map Char.toUpper = "SVCB".toList then
      match SVCB.tryFrom 0 (format_value md.value ⟨⟨1, 1, 1, 1⟩, 1111⟩) with
      | .error e => .error e
      | .ok _ => .ok ()
    else .ok ()

/-- `DnsPod::validate` (src/src/watcher/dnspod.rs, lines 338-344):
shared DNS validation plus a `u64` parse of `rid` when present. -/
def dnspod_validate (md : Metadata) : Except Str Unit :=
  match dns_validate md with
  | .error e => .error e
  | .ok _ =>
    match md.rid with
    | some rid =>
      match parseU64 rid with
      | none => .error "invalid digit found in string".toList
      | some _ => .ok ()
    | none => .ok ()

/-- `AliDns::validate` (src/src/watcher/alidns.rs, lines 359-361). -/
def alidns_validate (md : Metadata) : Except Str Unit :=
  dns_validate md

/-- A URI-record metadata without a priority, with a well-formed domain. -/
def mdUriNoPriority : Metadata :=
  ⟨[], [], some "example.com".toList, some "URI".toList, none, none, none⟩

/-! ## UPnP gateway (src/src/upnp.rs) -/

/-- `igd_next::PortMappingProtocol`. -/
inductive PortMappingProtocol where
  | TCP
  | UDP
deriving DecidableEq, Repr

/-- `MAPPING_DURATION` (src/src/upnp.rs, line 11): lease duration in
seconds requested from the gateway. -/
def MAPPING_DURATION : Nat := 3600

/-- `MAPPING_TIMEOUT` (src/src/upnp.rs, line 14): renew every half of
the mapping duration. -/
def MAPPING_TIMEOUT : Int := (MAPPING_DURATION : Int) / 2

/-- `PortMap` (src/src/upnp.rs, lines 17-29).  `timeout` is the lease
duration in seconds (`lease_seconds`, zero for a permanent lease);
`timestamp` is the unix time the mapping was last sent
(`last_renewed`).  The forward address is kept opaque. -/
structure PortMap where
  protocol : PortMappingProtocol
  forward_addr : Str
  external_port : Nat
  timeout : Nat
  timestamp : Int
deriving DecidableEq, Repr

/-- Outcome of one `gateway.add_any_port` call (an oracle input). -/
inductive AddPortResult where
  | ok (external_port : Nat)
  | onlyPermanentLeases
  | err (e : Str)
deriving DecidableEq, Repr

/-- `Upnp::add_port` (src/src/upnp.rs, lines 62-96): request an "add any
port" mapping with the full lease duration; on the
`OnlyPermanentLeasesSupported` error retry with lease `0` and record a
zero `timeout`.  `now` is the unix timestamp taken when the `PortMap` is
built; the unspecified-forward-ip substitution is not modelled (the
forward address is opaque here). -/
def add_port (now : Int) (protocol : PortMappingProtocol)
    (forward_addr : Str) (firstTry retryTry : AddPortResult) :
    Except Str PortMap :=
  match firstTry with
  | .ok p => .ok ⟨protocol, forward_addr, p, MAPPING_DURATION, now⟩
  | .onlyPermanentLeases =>
    match retryTry with
    | .ok p => .ok ⟨protocol, forward_addr, p, 0, now⟩
    | .onlyPermanentLeases => .error "OnlyPermanentLeasesSupported".toList
    | .err e => .error e
  | .err e => .error e

/-- The argument record of one `gateway.add_port` call made by
`renew_port`. -/
structure AddPortArgs where
  protocol : PortMappingProtocol
  external_port : Nat
  forward_addr : Str
  timeout : Nat
deriving DecidableEq, Repr

/-- `Upnp::renew_port` (src/src/upnp.rs, lines 99-115): skip when the
timestamp is zero or less than `MAPPING_TIMEOUT` seconds have elapsed;
otherwise re-issue one "add port" gateway call with the same external
port and, on success, refresh the timestamp.  `call` is the oracle
outcome of the gateway call; `now2` the timestamp taken after it; the
third component lists the gateway calls made. -/
def renew_port (now : Int) (call : Except Str Unit) (now2 : Int)
    (pm : PortMap) : Except Str Unit × PortMap × List AddPortArgs :=
  if pm.timestamp = 0 ∨ now - pm.timestamp < MAPPING_TIMEOUT then
    (.ok (), pm, [])
  else
    match call with
    | .error e =>
      (.error e, pm, [⟨pm.protocol, pm.external_port, pm.forward_addr, pm.timeout⟩])
    | .ok _ =>
      (.ok (), { pm with timestamp := now2 },
        [⟨pm.protocol, pm.external_port, pm.forward_addr, pm.timeout⟩])

/-- A permanent lease as produced by the fallback path of `add_port` at
unix time 1700000000. -/
def pmPermanentFallback : PortMap :=
  ⟨.TCP, "192.168.1.2:8080".toList, 8080, 0, 1700000000⟩

/-! ## Mapping supervisor (src/src/mapper.rs) -/

/-- The supervisor-visible state: `Mapper.public` (the last published
address string) and the task-local `failed` cursor
(src/src/mapper.rs, lines 34 and 218). -/
structure SupState where
  public : Option String
  failed : Int
deriving DecidableEq, Repr

/-- `Mapper::changed` (src/src/mapper.rs, lines 89-98), the comparison
part: true unless the stored public string equals the new address's
string form.  (The assignment `public = Some(addr)` is performed by
`superStep`.) -/
def changedUpd : Option String → String → Bool
  | some old, new => if old = new then false else true
  | none, _ => true

/-- The notifier walk (src/src/mapper.rs, lines 253-264): call the
watchers `i..` in order over the oracle outcomes `rs` (`true` = the
`new_address` call succeeded); stop at the first failure, recording its
absolute index in the cursor, `-1` when the tail succeeds.  `j` is the
enumeration offset of the `for` loop. -/
def walkAux : List Bool → Nat → Nat → List Nat × Int
  | [], _, _ => ([], -1)
  | ok :: rest, i, j =>
    if ok then
      ((i + j) :: (walkAux rest i (j + 1)).1, (walkAux rest i (j + 1)).2)
    else ([i + j], Int.ofNat (i + j))

/-- The walk over `watchers[i..]` with the enumeration starting at 0. -/
def walkFrom (results : List Bool) (i : Nat) : List Nat × Int :=
  walkAux (results.drop i) i 0

/-- One supervisor step on a received mapped address
(src/src/mapper.rs, lines 221-265, the `rx.recv` arm without the UPnP
renewal and logging): compute `changed`, store the new public string,
and when `changed || failed >= 0` walk the notifiers from index `0`
(changed) or from the failed cursor (resume), updating the cursor.
`addrStr` is the address's string form; `results` the oracle outcome of
each notifier's `new_address` call; the second component lists the
indices of the notifiers actually called, in call order. -/
def superStep (s : SupState) (addrStr : String) (results : List Bool) :
    SupState × List Nat :=
  let changed := changedUpd s.public addrStr
  if changed || decide (0 ≤ s.failed) then
    let r := walkFrom results (if changed then 0 else s.failed.toNat)
    (⟨some addrStr, r.2⟩, r.1)
  else (⟨some addrStr, s.failed⟩, [])

/-! ## TCP STUN probe (src/src/client/tcp.rs) -/

/-- A resolver output entry (`lookup_host` result): an IPv4 or IPv6
socket address, the payload kept opaque. -/
inductive RAddr where
  | v4 (a : Str)
  | v6 (a : Str)
deriving DecidableEq, Repr

/-- The `SocketAddr::V4` pattern of the source's `if let`. -/
def RAddr.isV4 : RAddr → Bool
  | .v4 _ => true
  | .v6 _ => false

/-- The loop of `new_connection` (src/src/client/tcp.rs, lines 28-45):
walk the resolved addresses, attempt to connect only to the IPv4 ones
(`connect` is the oracle outcome per address), remember the last
connect error, and fall back to the invalid-input error when no
attempt was made.  Returns the address that connected. -/
def new_connection_go (connect : RAddr → Except Str Unit) :
    Option Str → List RAddr → Except Str RAddr
  | last, [] =>
    match last with
    | some e => .error e
    | none => .error "could not resolve to any address".toList
  | last, a :: rest =>
    match a with
    | .v6 _ => new_connection_go connect last rest
    | .v4 _ =>
      match connect a with
      | .ok _ => .ok a
      | .error e => new_connection_go connect (some e) rest

/-- `new_connection` (src/src/client/tcp.rs, lines 24-46). -/
def new_connection (resolved : List RAddr)
    (connect : RAddr → Except Str Unit) : Except Str RAddr :=
  new_connection_go connect none resolved

/-- A read-back STUN message, kept opaque. -/
structure StunMsg where
  raw : Str
deriving DecidableEq, Repr

/-- `map_address` (src/src/client/tcp.rs, lines 49-74): connect, send a
Binding Request, read and parse the response, extract
XOR-MAPPED-ADDRESS.  `response` is the oracle for the write / reads /
`Message::read_from` pipeline on the connected stream (its error case
covers both I/O failures and a malformed message); `getXor` the oracle
for `XorMappedAddress::get_from` (its error case is the absent or
invalid attribute). -/
def map_address (resolved : List RAddr) (connect : RAddr → Except Str Unit)
    (response : RAddr → Except Str StunMsg)
    (getXor : StunMsg → Except Str XorMappedAddress) :
    Except Str XorMappedAddress :=
  match new_connection resolved connect with
  | .error e => .error e
  | .ok a =>
    match response a with
    | .error e => .error e
    | .ok msg =>
      match getXor msg with
      | .error e => .error e
      | .ok x => .ok x

/-! ## TCP keepalive worker inner loop (src/src/client/tcp.rs, lines
197-259) as a step machine.  One keepalive session is one run of the
inner `loop`; its select arms become events. -/

/-- The loop-local state of one keepalive session: the canonical
mapped address (`mapped_addr`), whether a response deadline is armed
(`deadline.is_some()`), and the byte counter `total`. -/
structure TcpAState where
  mapped : Option XorMappedAddress
  deadline : Bool
  total : Nat
deriving DecidableEq, Repr

/-- One select-arm firing of the inner loop.  `read n` is a successful
`reader.read` of `n` bytes; `tick` the keepalive interval tick with the
oracle outcome of `write_all`; `addrSig` a change notification on the
address watch channel carrying the new candidate and the oracle outcome
of the callback send. -/
inductive TcpAEvent where
  | read (n : Nat)
  | readErr
  | tick (writeOk : Bool)
  | deadlineFire
  | stunTick
  | addrSig (a : XorMappedAddress) (sendOk : Bool)
deriving DecidableEq, Repr

/-- Observable outputs of one inner-loop iteration. -/
inductive TcpAOut where
  | publish (a : XorMappedAddress)
  | logClosed (total : Nat)
  | logReadErr
  | logWriteErr
  | logTimeout
  | signalProbe
  | warnChanged
deriving DecidableEq, Repr

/-- Result of one iteration: successor state, outputs, and whether the
inner loop terminated (`break` or the `return` on a failed callback
send). -/
structure TcpAStep where
  state : TcpAState
  out : List TcpAOut
  broke : Bool
deriving DecidableEq, Repr

/-- One iteration of the inner loop (src/src/client/tcp.rs, lines
198-258).  A `tick` while a deadline is pending and a `deadlineFire`
while none is pending are disabled select branches and leave the state
unchanged. -/
def stepA (s : TcpAState) : TcpAEvent → TcpAStep
  | .read n =>
    if n = 0 then ⟨{ s with total := s.total + n }, [.logClosed (s.total + n)], true⟩
    else ⟨{ s with total := s.total + n, deadline := false }, [], false⟩
  | .readErr => ⟨s, [.logReadErr], true⟩
  | .tick writeOk =>
    if s.deadline then ⟨s, [], false⟩
    else if writeOk then ⟨{ s with deadline := true }, [], false⟩
    else ⟨s, [.logWriteErr], true⟩
  | .deadlineFire =>
    if s.deadline then ⟨s, [.logTimeout], true⟩ else ⟨s, [], false⟩
  | .stunTick => ⟨s, [.signalProbe], false⟩
  | .addrSig a sendOk =>
    match s.mapped with
    | some m =>
      if a = m then ⟨s, [], false⟩ else ⟨s, [.warnChanged], true⟩
    | none =>
      ⟨{ s with mapped := some a }, [.publish a], !sendOk⟩

/-- The state at the top of the inner loop: no canonical address, no
pending deadline, zero bytes received. -/
def initA : TcpAState := ⟨none, false, 0⟩

/-- Run the inner loop over a list of select firings, collecting the
outputs; stop when an iteration breaks. -/
def runA (s : TcpAState) : List TcpAEvent → List TcpAOut
  | [] => []
  | e :: rest =>
    if (stepA s e).broke then (stepA s e).out
    else (stepA s e).out ++ runA (stepA s e).state rest

/-- Is an output a publication to the supervisor callback? -/
def TcpAOut.isPublish : TcpAOut → Bool
  | .publish _ => true
  | _ => false

/-- The number of addresses sent to the supervisor callback. -/
def countPublish (outs : List TcpAOut) : Nat :=
  (outs.filter TcpAOut.isPublish).length

/-! ## UDP worker loop (src/src/client/udp.rs, lines 64-127) as a step
machine. -/

/-- The loop-local state: the outstanding transaction id (`req`), the
server index `i`, the `first_request` flag, and the cached
`stun_addr` (`stun_addrs.get(i).unwrap()`; kept in the state exactly as
the source keeps the borrowed element). -/
structure UdpState where
  req : Option Nat
  i : Nat
  firstRequest : Bool
  stunAddr : String
deriving DecidableEq, Repr

/-- A received datagram after the parse attempts: unparseable, or a
message with its transaction id and the optional XOR-MAPPED-ADDRESS
attribute (`none` when `get_from` fails). -/
inductive Datagram where
  | parseFail
  | msg (txid : Nat) (attr : Option XorMappedAddress)
deriving DecidableEq, Repr

/-- A select-arm firing: a datagram arrival, or an interval tick with a
fresh transaction id and the oracle outcome of `send_request`. -/
inductive UdpEvent where
  | recv (d : Datagram)
  | tick (fresh : Nat) (sendOk : Bool)
deriving DecidableEq, Repr

/-- Observable outputs of one loop iteration. -/
inductive UdpOut where
  | emit (a : XorMappedAddress)
  | logParseErr (server : String)
  | logAttrErr (txid : Nat) (server : String)
  | logNoResponse (txid : Nat) (server : String)
  | sent (server : String) (txid : Nat)
  | logSendErr (server : String)
deriving DecidableEq, Repr

/-- The round-robin advance `(i + 1) % stun_addrs.len()`
(src/src/client/udp.rs line 116 and src/src/client/tcp.rs line 168). -/
def rotate (len i : Nat) : Nat := (i + 1) % len

/-- One iteration of the UDP worker select loop (src/src/client/udp.rs,
lines 72-125).  On `recv`: ignore while no transaction is outstanding;
log a parse failure; drop a mismatched transaction id silently; clear
the outstanding slot on a match, then either log a missing attribute or
emit the mapped address to the supervisor channel.  On `tick`: log the
unanswered transaction, rotate the server index unless this is the
first request, then send (recording the new id on success, keeping the
old `req` and logging on failure). -/
def stepU (addrs : List String) (s : UdpState) : UdpEvent → UdpState × List UdpOut
  | .recv d =>
    match s.req with
    | none => (s, [])
    | some r =>
      match d with
      | .parseFail => (s, [.logParseErr s.stunAddr])
      | .msg t attr =>
        if t ≠ r then (s, [])
        else
          match attr with
          | none => ({ s with req := none }, [.logAttrErr t s.stunAddr])
          | some a => ({ s with req := none }, [.emit a])
  | .tick fresh sendOk =>
    let outs : List UdpOut :=
      match s.req with
      | some r => [.logNoResponse r s.stunAddr]
      | none => []
    let s' :=
      if s.firstRequest then { s with firstRequest := false }
      else
        { s with
          i := rotate addrs.length s.i,
          stunAddr := addrs.getD (rotate addrs.length s.i) "" }
    if sendOk then ({ s' with req := some fresh }, outs ++ [.sent s'.stunAddr fresh])
    else (s', outs ++ [.logSendErr s'.stunAddr])

/-- The state at loop entry (src/src/client/udp.rs, lines 66-70). -/
def initU (addrs : List String) : UdpState :=
  ⟨none, 0, true, addrs.getD 0 ""⟩

/-- The final state after a sequence of firings. -/
def runU (addrs : List String) : UdpState → List UdpEvent → UdpState
  | s, [] => s
  | s, e :: rest => runU addrs (stepU addrs s e).1 rest

/-! ## Client builders (src/src/client/mod.rs `builder!`,
src/src/client/tcp.rs and udp.rs `Builder::new`) -/

/-- The TCP client builder fields (the `builder!` expansion plus the
tcp-specific fields). -/
structure TcpBuilder where
  name : String
  local_addr : String
  keepalive_url : String
  stun_addrs : List String
  interval : Nat
  stun_interval : Nat
deriving DecidableEq, Repr

/-- `tcp::Builder::new` (src/src/client/tcp.rs, lines 84-94): the
defaults. -/
def TcpBuilder.new (name local_addr : String) : TcpBuilder :=
  ⟨name, local_addr, "http://www.baidu.com", ["turn.cloud-rtc.com:80"], 50, 300⟩

/-- `Builder::stun_addrs` (src/src/client/mod.rs, lines 57-63): an empty
list leaves the current value. -/
def TcpBuilder.setStunAddrs (b : TcpBuilder) (addrs : List String) : TcpBuilder :=
  if ¬ addrs.isEmpty then { b with stun_addrs := addrs } else b

/-- `Builder::interval` (src/src/client/mod.rs, lines 65-70): zero
leaves the current value. -/
def TcpBuilder.setInterval (b : TcpBuilder) (n : Nat) : TcpBuilder :=
  if 0 < n then { b with interval := n } else b

/-- `tcp::Builder::stun_interval` (src/src/client/tcp.rs, lines
101-106): zero leaves the current value. -/
def TcpBuilder.setStunInterval (b : TcpBuilder) (n : Nat) : TcpBuilder :=
  if 0 < n then { b with stun_interval := n } else b

/-- `tcp::Builder::keepalive_url` (src/src/client/tcp.rs, lines 96-99). -/
def TcpBuilder.setKeepaliveUrl (b : TcpBuilder) (u : String) : TcpBuilder :=
  { b with keepalive_url := u }

/-- A builder-method call on the TCP builder. -/
inductive TcpOp where
  | stun (addrs : List String)
  | interval (n : Nat)
  | stunInterval (n : Nat)
  | keepalive (u : String)

/-- Apply one builder-method call. -/
def TcpBuilder.apply (b : TcpBuilder) : TcpOp → TcpBuilder
  | .stun addrs => b.setStunAddrs addrs
  | .interval n => b.setInterval n
  | .stunInterval n => b.setStunInterval n
  | .keepalive u => b.setKeepaliveUrl u

/-- The UDP client builder fields. -/
structure UdpBuilder where
  name : String
  local_addr : String
  stun_addrs : List String
  interval : Nat
deriving DecidableEq, Repr

/-- `udp::Builder::new` (src/src/client/udp.rs, lines 26-39): the
defaults. -/
def UdpBuilder.new (name local_addr : String) : UdpBuilder :=
  ⟨name, local_addr,
    ["stun.chat.bilibili.com:3478", "stun.douyucdn.cn:18000",
      "stun.hitv.com:3478", "stun.miwifi.com:3478"], 20⟩

/-- `Builder::stun_addrs` for the UDP builder. -/
def UdpBuilder.setStunAddrs (b : UdpBuilder) (addrs : List String) : UdpBuilder :=
  if ¬ addrs.isEmpty then { b with stun_addrs := addrs } else b

/-- `Builder::interval` for the UDP builder. -/
def UdpBuilder.setInterval (b : UdpBuilder) (n : Nat) : UdpBuilder :=
  if 0 < n then { b with interval := n } else b

/-- A builder-method call on the UDP builder. -/
inductive UdpOp where
  | stun (addrs : List String)
  | interval (n : Nat)

/-- Apply one builder-method call. -/
def UdpBuilder.apply (b : UdpBuilder) : UdpOp → UdpBuilder
  | .stun addrs => b.setStunAddrs addrs
  | .interval n => b.setInterval n

/-! ## Theorems -/

/-- If the pattern does not occur in `s`, replacement leaves `s` intact. -/
theorem replaceAll_of_not_contains (pat rep : Str) :
    ∀ s : Str, containsSub pat s = false → replaceAll pat rep s = s := by
  intro s
  induction s with
  | nil => intro _; rw [replaceAll]
  | cons c rest ih =>
    intro h
    simp only [containsSub, Bool.or_eq_false_iff] at h
    rw [replaceAll]
    rw [if_neg]
    · rw [ih h.2]
    · rintro ⟨-, hpre⟩
      simp [h.1] at hpre

/-! Round-trip lemmas relating `splitChar` and `List.intercalate`. -/

theorem splitChar_ne_nil (sep : Char) : ∀ s : Str, splitChar sep s ≠ [] := by
  intro s
  cases s with
  | nil => simp [splitChar]
  | cons c rest =>
    by_cases h : c = sep
    · simp [splitChar, h]
    · simp only [splitChar, if_neg h]
      rcases splitChar sep rest with - | ⟨g, gs⟩ <;> simp

/-- A chunk free of the separator splits into just itself. -/
theorem splitChar_no_sep (sep : Char) :
    ∀ l : Str, sep ∉ l → splitChar sep l = [l] := by
  intro l
  induction l with
  | nil => intro _; rfl
  | cons c rest ih =>
    intro h
    have hc : c ≠ sep := fun he => h (he ▸ List.mem_cons_self c rest)
    have hr : sep ∉ rest := fun hm => h (List.mem_cons_of_mem c hm)
    simp [splitChar, hc, ih hr]

/-- Splitting a separator-free chunk followed by a separator and a rest
yields the chunk consed onto the split of the rest. -/
theorem splitChar_append_sep (sep : Char) :
    ∀ (l : Str), sep ∉ l → ∀ s : Str,
      splitChar sep (l ++ sep :: s) = l :: splitChar sep s := by
  intro l
  induction l with
  | nil => intro _ s; simp [splitChar]
  | cons c rest ih =>
    intro h s
    have hc : c ≠ sep := fun he => h (he ▸ List.mem_cons_self c rest)
    have hr : sep ∉ rest := fun hm => h (List.mem_cons_of_mem c hm)
    simp only [List.cons_append, splitChar, if_neg hc, List.append_eq_has_append,
      ih hr s]

/-- `List.intercalate` on a cons with a nonempty tail unfolds to the
head, the separator, and the intercalation of the tail. -/
theorem intercalate_cons_of_ne_nil (sep : List Char) (x : Str) (xs : List Str)
    (h : xs ≠ []) :
    List.intercalate sep (x :: xs) = x ++ sep ++ List.intercalate sep xs := by
  rcases xs with - | ⟨y, ys⟩
  · exact absurd rfl h
  · simp [List.intercalate, List.intersperse]

/-- Splitting the intercalation of nonempty, separator-free label lists
recovers the labels. -/
theorem splitChar_intercalate (sep : Char) :
    ∀ L : List Str, L ≠ [] → (∀ l ∈ L, sep ∉ l) →
      splitChar sep (List.intercalate [sep] L) = L := by
  intro L
  induction L with
  | nil => intro h _; exact absurd rfl h
  | cons l L ih =>
    intro _ hsep
    rcases L with - | ⟨m, M⟩
    · simp [List.intercalate, splitChar_no_sep sep l (hsep l (by simp))]
    · rw [intercalate_cons_of_ne_nil _ _ _ (by simp)]
      rw [List.append_assoc, List.singleton_append]
      rw [splitChar_append_sep sep l (hsep l (by simp))]
      rw [ih (by simp) (fun x hx => hsep x (List.mem_cons_of_mem l hx))]

/-- Splitting with one trailing separator appends one empty chunk. -/
theorem splitChar_append_trailing (sep : Char) :
    ∀ s : Str, splitChar sep (s ++ [sep]) = splitChar sep s ++ [[]] := by
  intro s
  induction s with
  | nil => simp [splitChar]
  | cons c rest ih =>
    by_cases hc : c = sep
    · simp [splitChar, hc, ih]
    · simp only [List.cons_append, splitChar, if_neg hc, List.append_eq_has_append,
        ih]
      rcases hne : splitChar sep rest with - | ⟨g, gs⟩
      · exact absurd hne (splitChar_ne_nil sep rest)
      · simp [hne]

/-- Intercalation distributes over appending two nonempty lists of chunks. -/
theorem intercalate_append_of_ne_nil (sep : List Char) :
    ∀ A B : List Str, A ≠ [] → B ≠ [] →
      List.intercalate sep (A ++ B) =
        List.intercalate sep A ++ sep ++ List.intercalate sep B := by
  intro A
  induction A with
  | nil => intro B h _; exact absurd rfl h
  | cons a A ih =>
    intro B _ hB
    rcases A with - | ⟨x, X⟩
    · rw [List.singleton_append, intercalate_cons_of_ne_nil sep a B hB]
      simp [List.intercalate, List.intersperse]
    · rw [List.cons_append, intercalate_cons_of_ne_nil sep a ((x :: X) ++ B) (by simp),
        intercalate_cons_of_ne_nil sep a (x :: X) (by simp),
        ih B (by simp) hB]
      simp [List.append_assoc]

/-- The last element of a list of nonempty labels is not the empty label. -/
theorem getLast?_ne_nil_of_all_ne_nil (L : List Str) (hL : L ≠ [])
    (h : ∀ l ∈ L, l ≠ []) : L.getLast? ≠ some [] := by
  rw [List.getLast?_eq_getLast L hL]
  intro hc
  exact h _ (List.getLast_mem hL) (Option.some_injective _ hc)

/-- `split_domain_name` unfolded through `domainLabels` (pure zeta
reduction of the source's two `let labels` bindings). -/
theorem split_domain_name_eq (d : Str) :
    split_domain_name d =
      if (domainLabels d).length < 2 then none
      else if ((domainLabels d).getD ((domainLabels d).length - 1) []).isEmpty
          || ((domainLabels d).getD ((domainLabels d).length - 2) []).isEmpty then
        none
      else
        some (List.intercalate ['.']
            ((domainLabels d).drop ((domainLabels d).length - 2)),
          List.intercalate ['.']
            ((domainLabels d).take ((domainLabels d).length - 2))) := rfl

/-- The stripped labels of a well-formed domain are exactly its labels. -/
theorem domainLabels_intercalate (L : List Str) (trailing : Bool)
    (hne : L ≠ []) (h : ∀ l ∈ L, l ≠ [] ∧ '.' ∉ l) :
    domainLabels (List.intercalate ['.'] L ++ if trailing then ['.'] else []) = L := by
  have hsplit : splitChar '.' (List.intercalate ['.'] L) = L :=
    splitChar_intercalate '.' L hne (fun l hl => (h l hl).2)
  cases trailing with
  | false =>
    show domainLabels (List.intercalate ['.'] L ++ []) = L
    rw [List.append_nil, domainLabels, hsplit,
      if_neg (getLast?_ne_nil_of_all_ne_nil L hne (fun l hl => (h l hl).1))]
  | true =>
    show domainLabels (List.intercalate ['.'] L ++ ['.']) = L
    rw [domainLabels, splitChar_append_trailing, hsplit, if_pos (by simp),
      List.dropLast_concat]

/-- C8: for every domain made of at least two non-empty dot-free labels,
optionally followed by a single trailing dot, `split_domain_name`
returns the SLD (last two labels joined with a dot) and the leading
subdomain (remaining labels joined), these round-trip to the domain with
the trailing dot removed (an empty subdomain meaning the SLD is the
whole stripped domain), and any input whose stripped label list has
fewer than two labels or an empty label in one of the last two
positions yields `none`. -/
theorem c8_split_domain_name_law :
    (∀ (L : List Str) (trailing : Bool),
      2 ≤ L.length → (∀ l ∈ L, l ≠ [] ∧ '.' ∉ l) →
      split_domain_name
          (List.intercalate ['.'] L ++ if trailing then ['.'] else []) =
        some (List.intercalate ['.'] (L.drop (L.length - 2)),
          List.intercalate ['.'] (L.take (L.length - 2))) ∧
      (L.length = 2 →
        List.intercalate ['.'] (L.take (L.length - 2)) = [] ∧
        List.intercalate ['.'] (L.drop (L.length - 2)) =
          List.intercalate ['.'] L) ∧
      (2 < L.length →
        List.intercalate ['.'] (L.take (L.length - 2)) ++
            '.' :: List.intercalate ['.'] (L.drop (L.length - 2)) =
          List.intercalate ['.'] L)) ∧
    (∀ d : Str,
      ((domainLabels d).length < 2 ∨
        (domainLabels d).getD ((domainLabels d).length - 1) [] = [] ∨
        (domainLabels d).getD ((domainLabels d).length - 2) [] = []) →
      split_domain_name d = none) := by
  constructor
  · intro L trailing hlen hlab
    have hne : L ≠ [] := by
      intro h
      rw [h] at hlen
      simp at hlen
    have hlabels := domainLabels_intercalate L trailing hne hlab
    have h1 : L.getD (L.length - 1) [] ≠ [] := by
      have hlt : L.length - 1 < L.length := by omega
      rw [List.getD_eq_getElem L [] hlt]
      exact (hlab _ (List.getElem_mem hlt)).1
    have h2 : L.getD (L.length - 2) [] ≠ [] := by
      have hlt : L.length - 2 < L.length := by omega
      rw [List.getD_eq_getElem L [] hlt]
      exact (hlab _ (List.getElem_mem hlt)).1
    refine ⟨?_, ?_, ?_⟩
    · rw [split_domain_name_eq, hlabels, if_neg (by omega), if_neg (by
        simp only [Bool.or_eq_true, List.isEmpty_iff]
        rintro (h | h)
        · exact h1 h
        · exact h2 h)]
    · intro h2'
      rw [h2']
      simp [List.intercalate]
    · intro hgt
      have htake : L.take (L.length - 2) ≠ [] := by
        rw [Ne, List.take_eq_nil_iff]
        rintro (h | h)
        · omega
        · exact hne h
      have hdrop : L.drop (L.length - 2) ≠ [] := by
        rw [Ne, List.drop_eq_nil_iff]
        omega
      have := intercalate_append_of_ne_nil ['.'] (L.take (L.length - 2))
        (L.drop (L.length - 2)) htake hdrop
      rw [List.take_append_drop] at this
      rw [this, List.append_assoc, List.singleton_append]
  · intro d h
    rw [split_domain_name_eq]
    by_cases hlt : (domainLabels d).length < 2
    · rw [if_pos hlt]
    · rw [if_neg hlt, if_pos ?_]
      rcases h with h | h | h
      · exact absurd h hlt
      · simp only [Bool.or_eq_true, List.isEmpty_iff]
        exact Or.inl h
      · simp only [Bool.or_eq_true, List.isEmpty_iff]
        exact Or.inr h

/-- C8 witness: a concrete three-label domain with a trailing dot. -/
theorem c8_split_domain_name_law_witness :
    split_domain_name "www.example.com.".toList =
        some ("example.com".toList, "www".toList) ∧
    "www".toList ++ '.' :: "example.com".toList = "www.example.com".toList := by
  have h := (c8_split_domain_name_law.1
    ["www".toList, "example".toList, "com".toList] true (by decide)
    (by decide)).1
  refine ⟨?_, by decide⟩
  have harg : (List.intercalate ['.']
      ["www".toList, "example".toList, "com".toList] ++
        if true = true then ['.'] else []) =
      "www.example.com.".toList := by decide
  rw [harg] at h
  rw [h]
  decide

/-- C9: `format_value` equals the composition of the two token
replacements (template with the ip token replaced by the address's ip
string, then the port token replaced by the port string), and applying
`format_value` to a string that contains neither token is the
identity (idempotence once tokens are absent). -/
theorem c9_format_value_substitution :
    (∀ (value : Str) (addr : XorMappedAddress),
      format_value value addr =
        replaceAll patPort (Nat.repr addr.port).toList
          (replaceAll patIp addr.ip.toStr value)) ∧
    (∀ (s : Str) (addr : XorMappedAddress),
      containsSub patIp s = false → containsSub patPort s = false →
      format_value s addr = s) := by
  refine ⟨fun value addr => rfl, fun s addr h1 h2 => ?_⟩
  unfold format_value
  rw [replaceAll_of_not_contains _ _ _ h1, replaceAll_of_not_contains _ _ _ h2]

/-- C9 witness: a concrete substituted value no longer carries tokens,
so a second application leaves it unchanged. -/
theorem c9_format_value_substitution_witness :
    containsSub patIp "10.0.0.1:99".toList = false ∧
    containsSub patPort "10.0.0.1:99".toList = false ∧
    format_value "10.0.0.1:99".toList ⟨⟨1, 2, 3, 4⟩, 7⟩ = "10.0.0.1:99".toList := by
  refine ⟨by decide, by decide, ?_⟩
  exact c9_format_value_substitution.2 _ _ (by decide) (by decide)

/-- `dns_validate` with both fields present, unfolded. -/
theorem dns_validate_some (md : Metadata) (d k : Str)
    (hd : md.domain = some d) (hk : md.kind = some k) :
    dns_validate md =
      if (k.map Char.toLower = "svcb".toList
            ∨ k.map Char.toLower = "https".toList)
          ∧ md.priority = none then
        .error "missing field `priority`".toList
      else
        match split_domain_name d with
        | none => .error "invalid domain character".toList
        | some _ => .ok () := by
  unfold dns_validate
  rw [hd, hk]

/-- A shared-validation error propagates through `Cloudflare::validate`. -/
theorem cf_validate_err (md : Metadata) (e : Str)
    (h : dns_validate md = .error e) : cf_validate md = .error e := by
  unfold cf_validate
  rw [h]

/-- A shared-validation error propagates through `DnsPod::validate`. -/
theorem dnspod_validate_err (md : Metadata) (e : Str)
    (h : dns_validate md = .error e) : dnspod_validate md = .error e := by
  unfold dnspod_validate
  rw [h]

/-- `Cloudflare::validate` after a successful shared validation. -/
theorem cf_validate_ok_unfold (md : Metadata)
    (hok : dns_validate md = .ok ()) :
    cf_validate md =
      if ¬ TYPES.contains ((md.kind.getD []).map Char.toUpper) then
        .error "unsupported record type".toList
      else if (md.kind.getD []).map Char.toUpper = "URI".toList
          ∧ md.priority = none then
        .error "missing field `priority`".toList
      else if (md.kind.getD []).map Char.toUpper = "SRV".toList then
        match SRV.tryFrom (format_value md.value ⟨⟨1, 1, 1, 1⟩, 1111⟩) with
        | .error e => .error e
        | .ok _ => .ok ()
      else if (md.kind.getD []).map Char.toUpper = "HTTPS".toList
          ∨ (md.kind.getD []).map Char.toUpper = "SVCB".toList then
        match SVCB.tryFrom 0 (format_value md.value ⟨⟨1, 1, 1, 1⟩, 1111⟩) with
        | .error e => .error e
        | .ok _ => .ok ()
      else .ok () := by
  unfold cf_validate
  rw [hok]

/-- C6 counterexample: the claim requires every DNS-provider validate to
reject a URI record without `priority`, but the alidns and dnspod
validates accept `mdUriNoPriority`. -/
theorem c6_validate_counterexample :
    mdUriNoPriority.kind = some "URI".toList ∧
    mdUriNoPriority.priority = none ∧
    alidns_validate mdUriNoPriority = .ok () ∧
    dnspod_validate mdUriNoPriority = .ok () := by
  refine ⟨rfl, rfl, rfl, rfl⟩

/-- C6 (amended): for every DNS-provider notifier, validate errors when
the domain or record-type field is missing; the shared validation makes
all three providers reject SVCB and HTTPS records without `priority`;
only Cloudflare additionally rejects URI records without `priority`
(dnspod and alidns accept them), rejects record types outside its
whitelist, and rejects a value template whose dry-run parse at
1.1.1.1:1111 fails for SRV, SVCB or HTTPS. -/
theorem c6_validate_rules :
    (∀ md : Metadata, md.domain = none →
      alidns_validate md = .error "missing field `domain`".toList ∧
      dnspod_validate md = .error "missing field `domain`".toList ∧
      cf_validate md = .error "missing field `domain`".toList) ∧
    (∀ (md : Metadata) (d : Str), md.domain = some d → md.kind = none →
      alidns_validate md = .error "missing field `type`".toList ∧
      dnspod_validate md = .error "missing field `type`".toList ∧
      cf_validate md = .error "missing field `type`".toList) ∧
    (∀ (md : Metadata) (d k : Str), md.domain = some d → md.kind = some k →
      (k.map Char.toLower = "svcb".toList ∨
        k.map Char.toLower = "https".toList) →
      md.priority = none →
      alidns_validate md = .error "missing field `priority`".toList ∧
      dnspod_validate md = .error "missing field `priority`".toList ∧
      cf_validate md = .error "missing field `priority`".toList) ∧
    (∀ md : Metadata, dns_validate md = .ok () →
      ¬ TYPES.contains ((md.kind.getD []).map Char.toUpper) →
      cf_validate md = .error "unsupported record type".toList) ∧
    (∀ md : Metadata, dns_validate md = .ok () →
      (md.kind.getD []).map Char.toUpper = "URI".toList →
      md.priority = none →
      cf_validate md = .error "missing field `priority`".toList) ∧
    (∀ (md : Metadata) (e : Str), dns_validate md = .ok () →
      (md.kind.getD []).map Char.toUpper = "SRV".toList →
      SRV.tryFrom (format_value md.value ⟨⟨1, 1, 1, 1⟩, 1111⟩) = .error e →
      cf_validate md = .error e) ∧
    (∀ (md : Metadata) (e : Str), dns_validate md = .ok () →
      ((md.kind.getD []).map Char.toUpper = "HTTPS".toList ∨
        (md.kind.getD []).map Char.toUpper = "SVCB".toList) →
      SVCB.tryFrom 0 (format_value md.value ⟨⟨1, 1, 1, 1⟩, 1111⟩) = .error e →
      cf_validate md = .error e) ∧
    (∀ (md : Metadata) (d k : Str), md.domain = some d → md.kind = some k →
      k.map Char.toLower = "uri".toList → md.priority = none →
      split_domain_name d ≠ none → md.rid = none →
      alidns_validate md = .ok () ∧ dnspod_validate md = .ok ()) := by
  refine ⟨?_, ?_, ?_, ?_, ?_, ?_, ?_, ?_⟩
  · intro md h
    have hdns : dns_validate md = .error "missing field `domain`".toList := by
      unfold dns_validate
      rw [h]
    exact ⟨hdns, dnspod_validate_err md _ hdns, cf_validate_err md _ hdns⟩
  · intro md d hd hk
    have hdns : dns_validate md = .error "missing field `type`".toList := by
      unfold dns_validate
      rw [hd, hk]
    exact ⟨hdns, dnspod_validate_err md _ hdns, cf_validate_err md _ hdns⟩
  · intro md d k hd hk hrt hp
    have hdns : dns_validate md = .error "missing field `priority`".toList := by
      rw [dns_validate_some md d k hd hk, if_pos ⟨hrt, hp⟩]
    exact ⟨hdns, dnspod_validate_err md _ hdns, cf_validate_err md _ hdns⟩
  · intro md hok hty
    rw [cf_validate_ok_unfold md hok, if_pos hty]
  · intro md hok hty hp
    rw [cf_validate_ok_unfold md hok,
      if_neg (show ¬ ¬ TYPES.contains ((md.kind.getD []).map Char.toUpper) by
        rw [hty]; decide),
      if_pos ⟨hty, hp⟩]
  · intro md e hok hty herr
    rw [cf_validate_ok_unfold md hok,
      if_neg (show ¬ ¬ TYPES.contains ((md.kind.getD []).map Char.toUpper) by
        rw [hty]; decide),
      if_neg (show ¬ ((md.kind.getD []).map Char.toUpper = "URI".toList
          ∧ md.priority = none) by
        rw [hty]; rintro ⟨h, -⟩; revert h; decide),
      if_pos hty, herr]
  · intro md e hok hty herr
    have hup : ¬ ¬ TYPES.contains ((md.kind.getD []).map Char.toUpper) := by
      rcases hty with hty | hty <;> rw [hty] <;> decide
    have hnu : ¬ ((md.kind.getD []).map Char.toUpper = "URI".toList
        ∧ md.priority = none) := by
      rcases hty with hty | hty <;> rw [hty] <;> rintro ⟨h, -⟩ <;>
        revert h <;> decide
    have hns : ¬ ((md.kind.getD []).map Char.toUpper = "SRV".toList) := by
      rcases hty with hty | hty <;> rw [hty] <;> decide
    rw [cf_validate_ok_unfold md hok, if_neg hup, if_neg hnu, if_neg hns,
      if_pos hty, herr]
  · intro md d k hd hk hrt hp hsplit hrid
    have h1 : ¬ ((k.map Char.toLower = "svcb".toList ∨
        k.map Char.toLower = "https".toList) ∧ md.priority = none) := by
      rw [hrt]
      rintro ⟨h | h, -⟩ <;> revert h <;> decide
    rcases hs : split_domain_name d with - | p
    · exact absurd hs hsplit
    · have hdns : dns_validate md = .ok () := by
        rw [dns_validate_some md d k hd hk, if_neg h1, hs]
      refine ⟨hdns, ?_⟩
      unfold dnspod_validate
      rw [hdns, hrid]

/-- C6 witness: the amended rules applied to concrete metadata — a URI
record without priority, which alidns and dnspod accept. -/
theorem c6_validate_rules_witness :
    alidns_validate mdUriNoPriority = .ok () ∧
    dnspod_validate mdUriNoPriority = .ok () :=
  c6_validate_rules.2.2.2.2.2.2.2 mdUriNoPriority "example.com".toList
    "URI".toList rfl rfl (by decide) rfl (by decide) rfl

/-- C3 counterexample: the permanent-lease fallback yields `timeout = 0`
with a nonzero timestamp, and 1800 seconds later `renew_port` performs a
gateway call (with lease duration 0) — not the no-op the claim
demands for `lease_seconds = 0`. -/
theorem c3_renew_port_counterexample :
    add_port 1700000000 .TCP "192.168.1.2:8080".toList
        AddPortResult.onlyPermanentLeases (AddPortResult.ok 8080) =
      .ok pmPermanentFallback ∧
    pmPermanentFallback.timeout = 0 ∧
    (renew_port 1700001800 (.ok ()) 1700001801 pmPermanentFallback).2.2 =
      [⟨.TCP, 8080, "192.168.1.2:8080".toList, 0⟩] := by
  refine ⟨rfl, rfl, ?_⟩
  rw [renew_port.eq_def, if_neg (by decide)]
  rfl

/-- C3 (amended): `renew_port` is a no-op iff the lease's `last_renewed`
timestamp is zero (a removed lease) or less than
`MAPPING_DURATION/2 = 1800` seconds have elapsed since `last_renewed`;
otherwise it performs exactly one add-port gateway call with the same
external port (and the stored lease duration, zero for a permanent
lease) and refreshes `last_renewed` on success.  In particular a
permanent-lease fallback lease (`lease_seconds = 0`, nonzero timestamp)
is re-sent once 1800 seconds have elapsed. -/
theorem c3_renew_port_threshold :
    MAPPING_TIMEOUT = 1800 ∧
    ∀ (now now2 : Int) (call : Except Str Unit) (pm : PortMap),
      ((pm.timestamp = 0 ∨ now - pm.timestamp < MAPPING_TIMEOUT) →
        renew_port now call now2 pm = (.ok (), pm, [])) ∧
      (¬ (pm.timestamp = 0 ∨ now - pm.timestamp < MAPPING_TIMEOUT) →
        (renew_port now call now2 pm).2.2 =
          [⟨pm.protocol, pm.external_port, pm.forward_addr, pm.timeout⟩] ∧
        (call = .ok () → renew_port now call now2 pm =
          (.ok (), { pm with timestamp := now2 },
            [⟨pm.protocol, pm.external_port, pm.forward_addr, pm.timeout⟩])) ∧
        (∀ e, call = .error e → renew_port now call now2 pm =
          (.error e, pm,
            [⟨pm.protocol, pm.external_port, pm.forward_addr, pm.timeout⟩]))) := by
  refine ⟨rfl, fun now now2 call pm => ⟨fun h => ?_, fun h => ?_⟩⟩
  · rw [renew_port.eq_def, if_pos h]
  · refine ⟨?_, fun hc => ?_, fun e hc => ?_⟩
    · rw [renew_port.eq_def, if_neg h]
      rcases call with e | u <;> rfl
    · rw [renew_port.eq_def, if_neg h, hc]
    · rw [renew_port.eq_def, if_neg h, hc]

/-- C3 witness: both branches of the amended statement exercised at
concrete times on the fallback lease. -/
theorem c3_renew_port_threshold_witness :
    renew_port 1700000100 (.ok ()) 1700000101 pmPermanentFallback =
      (.ok (), pmPermanentFallback, []) ∧
    renew_port 1700001800 (.ok ()) 1700001801 pmPermanentFallback =
      (.ok (), { pmPermanentFallback with timestamp := 1700001801 },
        [⟨.TCP, 8080, "192.168.1.2:8080".toList, 0⟩]) :=
  ⟨(c3_renew_port_threshold.2 1700000100 1700000101 (.ok ())
      pmPermanentFallback).1 (by decide),
   ((c3_renew_port_threshold.2 1700001800 1700001801 (.ok ())
      pmPermanentFallback).2 (by decide)).2.1 rfl⟩

/-- When every remaining outcome succeeds, the walk calls everything and
clears the cursor. -/
theorem walkAux_all_true :
    ∀ (rs : List Bool) (i j : Nat), (∀ x ∈ rs, x = true) →
      walkAux rs i j = (List.range' (i + j) rs.length, -1) := by
  intro rs
  induction rs with
  | nil => intro i j _; rfl
  | cons ok rest ih =>
    intro i j h
    have hok : ok = true := h ok (by simp)
    rw [walkAux, if_pos hok, ih i (j + 1) (fun x hx => h x (by simp [hx]))]
    simp [List.length_cons, List.range'_succ, Nat.add_assoc]

/-- When the first failure sits at offset `m`, the walk calls offsets
`0..m` inclusive and records the failing absolute index. -/
theorem walkAux_first_false :
    ∀ (rs : List Bool) (j m : Nat) (i : Nat), (∀ x ∈ rs.take m, x = true) →
      rs.get? m = some false →
      walkAux rs i j = (List.range' (i + j) (m + 1), Int.ofNat (i + j + m)) := by
  intro rs
  induction rs with
  | nil => intro j m i _ h; simp at h
  | cons ok rest ih =>
    intro j m i hpre h
    cases m with
    | zero =>
      simp only [List.get?_cons_zero, Option.some_inj] at h
      rw [walkAux, if_neg (by simp [h]), List.range'_one]
      simp
    | succ m =>
      have hok : ok = true := hpre ok (by simp)
      have hpre' : ∀ x ∈ rest.take m, x = true := fun x hx =>
        hpre x (by simp [hx])
      have h' : rest.get? m = some false := h
      rw [walkAux, if_pos hok, ih (j + 1) m i hpre' h']
      simp only [Prod.mk.injEq]
      refine ⟨?_, ?_⟩
      · rw [List.range'_succ, List.range'_succ,
          show i + j + 1 = i + (j + 1) from by omega,
          show i + (j + 1) + 1 = i + (j + 2) from by omega,
          List.range'_succ,
          show i + (j + 1) + 1 = i + (j + 2) from by omega]
      · congr 1
        omega

/-- Every index the walk calls is at least the start index. -/
theorem walkAux_lower_bound :
    ∀ (rs : List Bool) (i j : Nat) (x : Nat), x ∈ (walkAux rs i j).1 →
      i + j ≤ x := by
  intro rs
  induction rs with
  | nil => intro i j x hx; simp [walkAux] at hx
  | cons ok rest ih =>
    intro i j x hx
    rw [walkAux] at hx
    by_cases hok : ok = true
    · rw [if_pos hok] at hx
      rcases List.mem_cons.mp hx with h | h
      · omega
      · have := ih i (j + 1) x h
        omega
    · rw [if_neg hok] at hx
      simp at hx
      omega

/-- C2: per supervisor step, notifiers are walked iff the address string
changed or the failed cursor is nonnegative; a changed address starts
the walk at 0, an unchanged one at the cursor; the walk proceeds in
order, stopping at the first failing index `j` with the cursor set to
`j`, and clearing the cursor to `-1` when the tail succeeds; hence after
a failure at `j`, an unchanged next address calls only indices `≥ j`
while a changed one restarts from 0. -/
theorem c2_supervisor_dedup_resume :
    (∀ (pub : Option String) (a : String),
      changedUpd pub a = true ↔ pub ≠ some a) ∧
    (∀ (s : SupState) (a : String) (results : List Bool),
      ((superStep s a results).1).public = some a) ∧
    (∀ (s : SupState) (a : String) (results : List Bool),
      changedUpd s.public a = false → s.failed < 0 →
      superStep s a results = (⟨some a, s.failed⟩, [])) ∧
    (∀ (s : SupState) (a : String) (results : List Bool),
      changedUpd s.public a = true →
      superStep s a results =
        (⟨some a, (walkFrom results 0).2⟩, (walkFrom results 0).1)) ∧
    (∀ (s : SupState) (a : String) (results : List Bool),
      changedUpd s.public a = false → 0 ≤ s.failed →
      superStep s a results =
        (⟨some a, (walkFrom results s.failed.toNat).2⟩,
          (walkFrom results s.failed.toNat).1)) ∧
    (∀ (results : List Bool) (i : Nat), (∀ x ∈ results.drop i, x = true) →
      walkFrom results i = (List.range' i (results.drop i).length, -1)) ∧
    (∀ (results : List Bool) (i m : Nat),
      (∀ x ∈ (results.drop i).take m, x = true) →
      (results.drop i).get? m = some false →
      walkFrom results i = (List.range' i (m + 1), Int.ofNat (i + m))) ∧
    (∀ (s : SupState) (a : String) (results : List Bool) (j : Nat),
      s.public = some a → s.failed = Int.ofNat j →
      (superStep s a results).2 = (walkFrom results j).1 ∧
      ∀ x ∈ (superStep s a results).2, j ≤ x) ∧
    (∀ (s : SupState) (a a2 : String) (results : List Bool),
      s.public = some a → a2 ≠ a →
      (superStep s a2 results).2 = (walkFrom results 0).1) := by
  have hch : ∀ (pub : Option String) (a : String),
      changedUpd pub a = true ↔ pub ≠ some a := by
    intro pub a
    rcases pub with - | old
    · simp [changedUpd]
    · by_cases h : old = a <;> simp [changedUpd, h]
  have hfalse : ∀ (s : SupState) (a : String) (results : List Bool),
      changedUpd s.public a = false → s.failed < 0 →
      superStep s a results = (⟨some a, s.failed⟩, []) := by
    intro s a results hc hf
    rw [superStep]
    simp only [hc, Bool.false_or]
    rw [if_neg (by simp; omega)]
  have htrue : ∀ (s : SupState) (a : String) (results : List Bool),
      changedUpd s.public a = true →
      superStep s a results =
        (⟨some a, (walkFrom results 0).2⟩, (walkFrom results 0).1) := by
    intro s a results hc
    rw [superStep]
    simp only [hc, Bool.true_or, if_pos, if_true]
  have hresume : ∀ (s : SupState) (a : String) (results : List Bool),
      changedUpd s.public a = false → 0 ≤ s.failed →
      superStep s a results =
        (⟨some a, (walkFrom results s.failed.toNat).2⟩,
          (walkFrom results s.failed.toNat).1) := by
    intro s a results hc hf
    rw [superStep]
    simp only [hc, Bool.false_or, if_false, decide_eq_true_eq]
    rw [if_pos hf]
    rfl
  refine ⟨hch, ?_, hfalse, htrue, hresume, ?_, ?_, ?_, ?_⟩
  · intro s a results
    rw [superStep]
    by_cases h : (changedUpd s.public a || decide (0 ≤ s.failed)) = true
    · rw [if_pos h]
    · rw [if_neg h]
  · intro results i h
    rw [walkFrom, walkAux_all_true (results.drop i) i 0 h, Nat.add_zero]
  · intro results i m hpre h
    rw [walkFrom, walkAux_first_false (results.drop i) 0 m i hpre h,
      Nat.add_zero]
  · intro s a results j hpub hfail
    have hc : changedUpd s.public a = false := by
      rw [hpub, changedUpd, if_pos rfl]
    have hge : 0 ≤ s.failed := by rw [hfail]; exact Int.ofNat_nonneg j
    have := hresume s a results hc hge
    rw [this]
    have htn : s.failed.toNat = j := by rw [hfail]; rfl
    rw [htn]
    exact ⟨rfl, fun x hx => by
      have := walkAux_lower_bound (results.drop j) j 0 x hx
      omega⟩
  · intro s a a2 results hpub hne
    have hc : changedUpd s.public a2 = true := by
      rw [hpub, changedUpd, if_neg (fun he => hne he.symm)]
    rw [htrue s a2 results hc]

/-- C2 witness: three notifiers, failure at index 1 on a first update,
then an unchanged address resumes at index 1 and clears the cursor. -/
theorem c2_supervisor_dedup_resume_witness :
    superStep ⟨some "1.2.3.4:5000", Int.ofNat 1⟩ "1.2.3.4:5000"
        [true, true, true] =
      (⟨some "1.2.3.4:5000", -1⟩, [1, 2]) := by
  have h := (c2_supervisor_dedup_resume.2.2.2.2.1)
    ⟨some "1.2.3.4:5000", Int.ofNat 1⟩ "1.2.3.4:5000" [true, true, true]
    (by rw [changedUpd, if_pos rfl]) (by exact Int.ofNat_nonneg 1)
  rw [h]
  rfl

/-- A successful `new_connection_go` connected to an IPv4 entry of the
list. -/
theorem new_connection_go_ok (connect : RAddr → Except Str Unit) :
    ∀ (l : List RAddr) (last : Option Str) (a : RAddr),
      new_connection_go connect last l = .ok a →
      a ∈ l ∧ a.isV4 = true ∧ connect a = .ok () := by
  intro l
  induction l with
  | nil =>
    intro last a h
    rcases last with - | e <;> simp [new_connection_go] at h
  | cons c rest ih =>
    intro last a h
    rcases c with s | s
    · rw [new_connection_go] at h
      rcases hc : connect (.v4 s) with e | u
      · rw [hc] at h
        rcases ih (some e) a h with ⟨hm, hv, hco⟩
        exact ⟨List.mem_cons_of_mem _ hm, hv, hco⟩
      · rw [hc] at h
        cases h
        exact ⟨List.mem_cons_self _ _, rfl, by rw [hc]⟩
    · rw [new_connection_go] at h
      rcases ih last a h with ⟨hm, hv, hco⟩
      exact ⟨List.mem_cons_of_mem _ hm, hv, hco⟩

/-- When every IPv4 candidate fails to connect, `new_connection_go`
returns the last IPv4 candidate's error, falling back to the remembered
error and then to the invalid-input error. -/
theorem new_connection_go_all_fail (connect : RAddr → Except Str Unit)
    (errf : RAddr → Str) :
    ∀ (l : List RAddr) (last : Option Str),
      (∀ a ∈ l, a.isV4 = true → connect a = .error (errf a)) →
      new_connection_go connect last l =
        .error (((l.filter RAddr.isV4).map errf).getLast?.getD
          (last.getD "could not resolve to any address".toList)) := by
  intro l
  induction l with
  | nil =>
    intro last h
    rcases last with - | e <;> rfl
  | cons c rest ih =>
    intro last h
    rcases c with s | s
    · have hc : connect (.v4 s) = .error (errf (.v4 s)) := h _ (by simp) rfl
      have htail := ih (some (errf (.v4 s))) (fun a ha hv => h a (by simp [ha]) hv)
      rw [new_connection_go, hc, List.filter_cons,
        if_pos (show (RAddr.v4 s).isV4 = true from rfl), List.map_cons,
        List.getLast?_cons, Option.getD_some]
      exact htail
    · have htail := ih last (fun a ha hv => h a (by simp [ha]) hv)
      rw [new_connection_go, List.filter_cons, if_neg (by rw [RAddr.isV4]; simp)]
      exact htail

/-- C7: the TCP probe connects only to IPv4 resolver candidates, skipping
IPv6; with no IPv4 candidate it fails with the fixed could-not-resolve
error; when every IPv4 connect fails it returns the last connect error;
after connecting it fails exactly on a bad response read/parse or a
missing XOR-MAPPED-ADDRESS attribute, and otherwise returns the parsed
mapped address. -/
theorem c7_tcp_probe_errors :
    (∀ (resolved : List RAddr) (connect : RAddr → Except Str Unit) (a : RAddr),
      new_connection resolved connect = .ok a →
      a ∈ resolved ∧ a.isV4 = true ∧ connect a = .ok ()) ∧
    (∀ (resolved : List RAddr) (connect : RAddr → Except Str Unit),
      (∀ a ∈ resolved, a.isV4 = false) →
      new_connection resolved connect =
        .error "could not resolve to any address".toList) ∧
    (∀ (resolved : List RAddr) (connect : RAddr → Except Str Unit)
      (errf : RAddr → Str) (b : RAddr),
      (∀ a ∈ resolved, a.isV4 = true → connect a = .error (errf a)) →
      (resolved.filter RAddr.isV4).getLast? = some b →
      new_connection resolved connect = .error (errf b)) ∧
    (∀ resolved connect (response : RAddr → Except Str StunMsg)
      (getXor : StunMsg → Except Str XorMappedAddress) (e : Str),
      new_connection resolved connect = .error e →
      map_address resolved connect response getXor = .error e) ∧
    (∀ resolved connect (response : RAddr → Except Str StunMsg)
      (getXor : StunMsg → Except Str XorMappedAddress) (a : RAddr) (e : Str),
      new_connection resolved connect = .ok a → response a = .error e →
      map_address resolved connect response getXor = .error e) ∧
    (∀ resolved connect (response : RAddr → Except Str StunMsg)
      (getXor : StunMsg → Except Str XorMappedAddress) (a : RAddr)
      (msg : StunMsg) (e : Str),
      new_connection resolved connect = .ok a → response a = .ok msg →
      getXor msg = .error e →
      map_address resolved connect response getXor = .error e) ∧
    (∀ resolved connect (response : RAddr → Except Str StunMsg)
      (getXor : StunMsg → Except Str XorMappedAddress) (a : RAddr)
      (msg : StunMsg) (x : XorMappedAddress),
      new_connection resolved connect = .ok a → response a = .ok msg →
      getXor msg = .ok x →
      map_address resolved connect response getXor = .ok x) := by
  refine ⟨?_, ?_, ?_, ?_, ?_, ?_, ?_⟩
  · intro resolved connect a h
    exact new_connection_go_ok connect resolved none a h
  · intro resolved connect h
    have hvac : ∀ a ∈ resolved, a.isV4 = true →
        connect a = .error ((fun _ => ([] : Str)) a) :=
      fun a ha hv => absurd hv (by simp [h a ha])
    rw [new_connection, new_connection_go_all_fail connect (fun _ => [])
      resolved none hvac,
      List.filter_eq_nil_iff.mpr (fun a ha => by simp [h a ha])]
    rfl
  · intro resolved connect errf b h hb
    rw [new_connection, new_connection_go_all_fail connect errf resolved none h,
      List.getLast?_map, hb]
    rfl
  · intro resolved connect response getXor e h
    simp only [map_address, h]
  · intro resolved connect response getXor a e h hr
    simp only [map_address, h, hr]
  · intro resolved connect response getXor a msg e h hr hx
    simp only [map_address, h, hr, hx]
  · intro resolved connect response getXor a msg x h hr hx
    simp only [map_address, h, hr, hx]

/-- C7 witness: one IPv6 candidate is skipped and two failing IPv4
candidates yield the last connect error. -/
theorem c7_tcp_probe_errors_witness :
    new_connection
        [RAddr.v6 "h".toList, RAddr.v4 "a".toList, RAddr.v4 "b".toList]
        (fun r => Except.error
          (match r with | RAddr.v4 p => p | RAddr.v6 p => p)) =
      .error "b".toList :=
  c7_tcp_probe_errors.2.2.1
    [RAddr.v6 "h".toList, RAddr.v4 "a".toList, RAddr.v4 "b".toList]
    (fun r => Except.error
      (match r with | RAddr.v4 p => p | RAddr.v6 p => p))
    (fun r => match r with | RAddr.v4 p => p | RAddr.v6 p => p)
    (RAddr.v4 "b".toList) (fun a _ _ => rfl) (by decide)

/-- Publish-counting distributes over appended outputs. -/
theorem countPublish_append (a b : List TcpAOut) :
    countPublish (a ++ b) = countPublish a + countPublish b := by
  simp [countPublish, List.filter_append]

/-- One iteration publishes at most once, and only out of the
no-canonical-address state, which it leaves. -/
theorem stepA_publish_bound (s : TcpAState) (e : TcpAEvent) :
    countPublish (stepA s e).out +
      (if (stepA s e).state.mapped.isSome then 0 else 1) ≤
      (if s.mapped.isSome then 0 else 1) := by
  cases e with
  | read n =>
    by_cases h : n = 0 <;>
      simp [stepA, h, countPublish, TcpAOut.isPublish]
  | readErr => simp [stepA, countPublish, TcpAOut.isPublish]
  | tick writeOk =>
    by_cases h : s.deadline <;> by_cases hw : writeOk <;>
      simp [stepA, h, hw, countPublish, TcpAOut.isPublish]
  | deadlineFire =>
    by_cases h : s.deadline <;>
      simp [stepA, h, countPublish, TcpAOut.isPublish]
  | stunTick => simp [stepA, countPublish, TcpAOut.isPublish]
  | addrSig a sendOk =>
    rcases hm : s.mapped with - | m
    · simp [stepA, hm, countPublish, TcpAOut.isPublish]
    · by_cases h : a = m <;>
        simp [stepA, hm, h, countPublish, TcpAOut.isPublish]

/-- Run-level publish bound: one session publishes at most once past a
state that already has a canonical address, at most once overall. -/
theorem runA_publish_bound :
    ∀ (events : List TcpAEvent) (s : TcpAState),
      countPublish (runA s events) ≤ if s.mapped.isSome then 0 else 1 := by
  intro events
  induction events with
  | nil => intro s; simp [runA, countPublish]
  | cons e rest ih =>
    intro s
    have hstep := stepA_publish_bound s e
    rw [runA]
    by_cases hb : (stepA s e).broke
    · rw [if_pos hb]
      omega
    · rw [if_neg hb, countPublish_append]
      have htail := ih (stepA s e).state
      omega

/-- C1: within one keepalive session at most one address is sent to the
supervisor callback; the first observation is published and recorded as
canonical, a later equal observation does nothing, and a later
different observation breaks the session without publishing. -/
theorem c1_tcp_first_address_rule :
    (∀ events : List TcpAEvent, countPublish (runA initA events) ≤ 1) ∧
    (∀ (s : TcpAState) (a : XorMappedAddress) (sendOk : Bool),
      s.mapped = none →
      stepA s (.addrSig a sendOk) =
        ⟨{ s with mapped := some a }, [.publish a], !sendOk⟩) ∧
    (∀ (s : TcpAState) (a : XorMappedAddress) (sendOk : Bool),
      s.mapped = some a →
      stepA s (.addrSig a sendOk) = ⟨s, [], false⟩) ∧
    (∀ (s : TcpAState) (a m : XorMappedAddress) (sendOk : Bool),
      s.mapped = some m → a ≠ m →
      stepA s (.addrSig a sendOk) = ⟨s, [.warnChanged], true⟩) := by
  refine ⟨?_, ?_, ?_, ?_⟩
  · intro events
    have := runA_publish_bound events initA
    simpa [initA] using this
  · intro s a sendOk h
    simp [stepA, h]
  · intro s a sendOk h
    simp [stepA, h]
  · intro s a m sendOk h hne
    simp [stepA, h, hne]

/-- C1 witness: a concrete session — first probe result published, an
equal one ignored, a changed one tears the session down. -/
theorem c1_tcp_first_address_rule_witness :
    stepA initA (.addrSig ⟨⟨9, 9, 9, 9⟩, 6000⟩ true) =
      ⟨⟨some ⟨⟨9, 9, 9, 9⟩, 6000⟩, false, 0⟩,
        [.publish ⟨⟨9, 9, 9, 9⟩, 6000⟩], false⟩ ∧
    stepA ⟨some ⟨⟨9, 9, 9, 9⟩, 6000⟩, false, 0⟩
        (.addrSig ⟨⟨9, 9, 9, 9⟩, 6000⟩ true) =
      ⟨⟨some ⟨⟨9, 9, 9, 9⟩, 6000⟩, false, 0⟩, [], false⟩ ∧
    stepA ⟨some ⟨⟨9, 9, 9, 9⟩, 6000⟩, false, 0⟩
        (.addrSig ⟨⟨9, 9, 9, 9⟩, 6005⟩ true) =
      ⟨⟨some ⟨⟨9, 9, 9, 9⟩, 6000⟩, false, 0⟩, [.warnChanged], true⟩ ∧
    countPublish (runA initA
      [.stunTick, .addrSig ⟨⟨9, 9, 9, 9⟩, 6000⟩ true,
        .addrSig ⟨⟨9, 9, 9, 9⟩, 6005⟩ true]) ≤ 1 :=
  ⟨c1_tcp_first_address_rule.2.1 initA ⟨⟨9, 9, 9, 9⟩, 6000⟩ true rfl,
   c1_tcp_first_address_rule.2.2.1 ⟨some ⟨⟨9, 9, 9, 9⟩, 6000⟩, false, 0⟩
     ⟨⟨9, 9, 9, 9⟩, 6000⟩ true rfl,
   c1_tcp_first_address_rule.2.2.2 ⟨some ⟨⟨9, 9, 9, 9⟩, 6000⟩, false, 0⟩
     ⟨⟨9, 9, 9, 9⟩, 6005⟩ ⟨⟨9, 9, 9, 9⟩, 6000⟩ true rfl (by decide),
   c1_tcp_first_address_rule.1
     [.stunTick, .addrSig ⟨⟨9, 9, 9, 9⟩, 6000⟩ true,
       .addrSig ⟨⟨9, 9, 9, 9⟩, 6005⟩ true]⟩

/-- C4: a mapped address is delivered to the supervisor channel only for
a datagram whose transaction id equals the single outstanding request
id; datagrams with no request outstanding or a mismatched id change
nothing and deliver nothing; a matching datagram clears the outstanding
slot, so each request id is answered at most once. -/
theorem c4_udp_correlation :
    (∀ (addrs : List String) (s : UdpState) (e : UdpEvent)
      (a : XorMappedAddress),
      UdpOut.emit a ∈ (stepU addrs s e).2 →
      ∃ t, e = .recv (.msg t (some a)) ∧ s.req = some t) ∧
    (∀ (addrs : List String) (s : UdpState) (d : Datagram), s.req = none →
      stepU addrs s (.recv d) = (s, [])) ∧
    (∀ (addrs : List String) (s : UdpState) (r t : Nat)
      (attr : Option XorMappedAddress),
      s.req = some r → t ≠ r →
      stepU addrs s (.recv (.msg t attr)) = (s, [])) ∧
    (∀ (addrs : List String) (s : UdpState) (r : Nat)
      (attr : Option XorMappedAddress),
      s.req = some r →
      ((stepU addrs s (.recv (.msg r attr))).1).req = none) := by
  refine ⟨?_, ?_, ?_, ?_⟩
  · intro addrs s e a hmem
    cases e with
    | tick fresh sendOk =>
      exfalso
      rcases hr : s.req with - | r <;> by_cases hf : s.firstRequest <;>
        by_cases hs : sendOk <;> simp [stepU, hr, hf, hs] at hmem
    | recv d =>
      rcases hr : s.req with - | r
      · simp [stepU, hr] at hmem
      · cases d with
        | parseFail => simp [stepU, hr] at hmem
        | msg t attr =>
          by_cases ht : t = r
          · subst ht
            cases attr with
            | none => simp [stepU, hr] at hmem
            | some a' =>
              have ha : a = a' := by simp [stepU, hr] at hmem; exact hmem
              refine ⟨t, ?_, rfl⟩
              rw [ha]
          · simp [stepU, hr, ht] at hmem
  · intro addrs s d h
    simp [stepU, h]
  · intro addrs s r t attr h ht
    simp [stepU, h, ht]
  · intro addrs s r attr h
    cases attr with
    | none => simp [stepU, h]
    | some a => simp [stepU, h]

/-- C4 witness: a matching datagram emits and clears the slot; a
mismatched one is dropped. -/
theorem c4_udp_correlation_witness :
    stepU ["s1"] ⟨some 7, 0, false, "s1"⟩ (.recv (.msg 9 none)) =
      (⟨some 7, 0, false, "s1"⟩, []) ∧
    ((stepU ["s1"] ⟨some 7, 0, false, "s1"⟩
      (.recv (.msg 7 (some ⟨⟨1, 2, 3, 4⟩, 5000⟩)))).1).req = none :=
  ⟨c4_udp_correlation.2.2.1 ["s1"] ⟨some 7, 0, false, "s1"⟩ 7 9 none rfl
    (by decide),
   c4_udp_correlation.2.2.2 ["s1"] ⟨some 7, 0, false, "s1"⟩ 7
    (some ⟨⟨1, 2, 3, 4⟩, 5000⟩) rfl⟩

/-- C5: the first tick sends to server index 0 without rotating; every
later tick advances the index by exactly one modulo the pool size
before sending, regardless of the previous probe's outcome; and an
unanswered transaction is logged at tick time against that transaction
id and the current server. -/
theorem c5_udp_rotation :
    (∀ (addrs : List String) (fresh : Nat),
      stepU addrs (initU addrs) (.tick fresh true) =
        (⟨some fresh, 0, false, addrs.getD 0 ""⟩,
          [.sent (addrs.getD 0 "") fresh])) ∧
    (∀ (addrs : List String) (s : UdpState) (fresh : Nat) (sendOk : Bool),
      s.firstRequest = true →
      ((stepU addrs s (.tick fresh sendOk)).1).i = s.i ∧
      ((stepU addrs s (.tick fresh sendOk)).1).stunAddr = s.stunAddr ∧
      ((stepU addrs s (.tick fresh sendOk)).1).firstRequest = false) ∧
    (∀ (addrs : List String) (s : UdpState) (fresh : Nat) (sendOk : Bool),
      s.firstRequest = false →
      ((stepU addrs s (.tick fresh sendOk)).1).i = rotate addrs.length s.i ∧
      ((stepU addrs s (.tick fresh sendOk)).1).stunAddr =
        addrs.getD (rotate addrs.length s.i) "" ∧
      rotate addrs.length s.i = (s.i + 1) % addrs.length) ∧
    (∀ (addrs : List String) (s : UdpState) (fresh : Nat),
      UdpOut.sent ((stepU addrs s (.tick fresh true)).1).stunAddr fresh ∈
        (stepU addrs s (.tick fresh true)).2) ∧
    (∀ (addrs : List String) (s : UdpState) (fresh : Nat) (sendOk : Bool)
      (r : Nat), s.req = some r →
      UdpOut.logNoResponse r s.stunAddr ∈
        (stepU addrs s (.tick fresh sendOk)).2) := by
  refine ⟨?_, ?_, ?_, ?_, ?_⟩
  · intro addrs fresh
    simp [stepU, initU]
  · intro addrs s fresh sendOk h
    by_cases hs : sendOk <;> rcases hr : s.req with - | r <;>
      simp [stepU, h, hs, hr]
  · intro addrs s fresh sendOk h
    by_cases hs : sendOk <;> rcases hr : s.req with - | r <;>
      simp [stepU, h, hs, hr, rotate]
  · intro addrs s fresh
    by_cases hf : s.firstRequest <;> rcases hr : s.req with - | r <;>
      simp [stepU, hf, hr]
  · intro addrs s fresh sendOk r h
    by_cases hf : s.firstRequest <;> by_cases hs : sendOk <;>
      simp [stepU, hf, hs, h]

/-- C5 witness: with a two-server pool, the first tick probes server 0
and a second tick (with the first request unanswered) logs the
no-response error and rotates to server 1. -/
theorem c5_udp_rotation_witness :
    stepU ["s1", "s2"] (initU ["s1", "s2"]) (.tick 7 true) =
      (⟨some 7, 0, false, "s1"⟩, [.sent "s1" 7]) ∧
    ((stepU ["s1", "s2"] ⟨some 7, 0, false, "s1"⟩ (.tick 8 true)).1).i =
      rotate 2 0 ∧
    UdpOut.logNoResponse 7 "s1" ∈
      (stepU ["s1", "s2"] ⟨some 7, 0, false, "s1"⟩ (.tick 8 true)).2 :=
  ⟨c5_udp_rotation.1 ["s1", "s2"] 7,
   (c5_udp_rotation.2.2.1 ["s1", "s2"] ⟨some 7, 0, false, "s1"⟩ 8 true rfl).1,
   c5_udp_rotation.2.2.2.2 ["s1", "s2"] ⟨some 7, 0, false, "s1"⟩ 8 true 7 rfl⟩

/-- The guarded setters preserve a nonempty server list and positive
intervals of the TCP builder. -/
theorem tcpBuilder_foldl_inv :
    ∀ (ops : List TcpOp) (b : TcpBuilder),
      b.stun_addrs ≠ [] → 0 < b.interval → 0 < b.stun_interval →
      (ops.foldl TcpBuilder.apply b).stun_addrs ≠ [] ∧
      0 < (ops.foldl TcpBuilder.apply b).interval ∧
      0 < (ops.foldl TcpBuilder.apply b).stun_interval := by
  intro ops
  induction ops with
  | nil => intro b h1 h2 h3; exact ⟨h1, h2, h3⟩
  | cons op rest ih =>
    intro b h1 h2 h3
    rw [List.foldl_cons]
    cases op with
    | stun addrs =>
      by_cases h : addrs.isEmpty
      · exact ih _ (by simp [TcpBuilder.apply, TcpBuilder.setStunAddrs, h, h1])
          (by simp [TcpBuilder.apply, TcpBuilder.setStunAddrs, h, h2])
          (by simp [TcpBuilder.apply, TcpBuilder.setStunAddrs, h, h3])
      · exact ih _
          (by simp [TcpBuilder.apply, TcpBuilder.setStunAddrs, h]
              simpa [List.isEmpty_iff] using h)
          (by simp [TcpBuilder.apply, TcpBuilder.setStunAddrs, h, h2])
          (by simp [TcpBuilder.apply, TcpBuilder.setStunAddrs, h, h3])
    | interval n =>
      by_cases h : 0 < n
      · exact ih _ (by simp [TcpBuilder.apply, TcpBuilder.setInterval, h, h1])
          (by simp [TcpBuilder.apply, TcpBuilder.setInterval, h])
          (by simp [TcpBuilder.apply, TcpBuilder.setInterval, h, h3])
      · exact ih _ (by simp [TcpBuilder.apply, TcpBuilder.setInterval, h, h1])
          (by simp [TcpBuilder.apply, TcpBuilder.setInterval, h, h2])
          (by simp [TcpBuilder.apply, TcpBuilder.setInterval, h, h3])
    | stunInterval n =>
      by_cases h : 0 < n
      · exact ih _
          (by simp [TcpBuilder.apply, TcpBuilder.setStunInterval, h, h1])
          (by simp [TcpBuilder.apply, TcpBuilder.setStunInterval, h, h2])
          (by simp [TcpBuilder.apply, TcpBuilder.setStunInterval, h])
      · exact ih _
          (by simp [TcpBuilder.apply, TcpBuilder.setStunInterval, h, h1])
          (by simp [TcpBuilder.apply, TcpBuilder.setStunInterval, h, h2])
          (by simp [TcpBuilder.apply, TcpBuilder.setStunInterval, h, h3])
    | keepalive u =>
      exact ih _ (by simp [TcpBuilder.apply, TcpBuilder.setKeepaliveUrl, h1])
        (by simp [TcpBuilder.apply, TcpBuilder.setKeepaliveUrl, h2])
        (by simp [TcpBuilder.apply, TcpBuilder.setKeepaliveUrl, h3])

/-- The guarded setters preserve a nonempty server list and a positive
interval of the UDP builder. -/
theorem udpBuilder_foldl_inv :
    ∀ (ops : List UdpOp) (b : UdpBuilder),
      b.stun_addrs ≠ [] → 0 < b.interval →
      (ops.foldl UdpBuilder.apply b).stun_addrs ≠ [] ∧
      0 < (ops.foldl UdpBuilder.apply b).interval := by
  intro ops
  induction ops with
  | nil => intro b h1 h2; exact ⟨h1, h2⟩
  | cons op rest ih =>
    intro b h1 h2
    rw [List.foldl_cons]
    cases op with
    | stun addrs =>
      by_cases h : addrs.isEmpty
      · exact ih _ (by simp [UdpBuilder.apply, UdpBuilder.setStunAddrs, h, h1])
          (by simp [UdpBuilder.apply, UdpBuilder.setStunAddrs, h, h2])
      · exact ih _
          (by simp [UdpBuilder.apply, UdpBuilder.setStunAddrs, h]
              simpa [List.isEmpty_iff] using h)
          (by simp [UdpBuilder.apply, UdpBuilder.setStunAddrs, h, h2])
    | interval n =>
      by_cases h : 0 < n
      · exact ih _ (by simp [UdpBuilder.apply, UdpBuilder.setInterval, h, h1])
          (by simp [UdpBuilder.apply, UdpBuilder.setInterval, h])
      · exact ih _ (by simp [UdpBuilder.apply, UdpBuilder.setInterval, h, h1])
          (by simp [UdpBuilder.apply, UdpBuilder.setInterval, h, h2])

/-- Every step of the UDP worker keeps the server index inside the
pool. -/
theorem runU_index_lt :
    ∀ (addrs : List String) (events : List UdpEvent) (s : UdpState),
      addrs ≠ [] → s.i < addrs.length →
      (runU addrs s events).i < addrs.length := by
  intro addrs events
  induction events with
  | nil => intro s _ h; exact h
  | cons e rest ih =>
    intro s hne h
    rw [runU]
    refine ih _ hne ?_
    have hlen : 0 < addrs.length := List.length_pos.mpr hne
    cases e with
    | recv d =>
      rcases hr : s.req with - | r
      · simpa [stepU, hr] using h
      · cases d with
        | parseFail => simpa [stepU, hr] using h
        | msg t attr =>
          by_cases ht : t = r
          · subst ht
            cases attr with
            | none => simpa [stepU, hr] using h
            | some a => simpa [stepU, hr] using h
          · simpa [stepU, hr, ht] using h
    | tick fresh sendOk =>
      by_cases hf : s.firstRequest <;> by_cases hs : sendOk <;>
        simp [stepU, hf, hs, rotate] <;>
        first
          | exact h
          | exact Nat.mod_lt _ hlen

/-- C10: the builder setters ignore an empty STUN list and zero
intervals, so every built client carries a nonempty server pool and
positive intervals; consequently the pool length is nonzero (the
round-robin modulus never divides by zero), the rotated index stays
inside the pool, and the worker's indexed accesses always find an
element. -/
theorem c10_builder_guards_safety :
    (∀ (name la : String) (ops : List TcpOp),
      (ops.foldl TcpBuilder.apply (TcpBuilder.new name la)).stun_addrs ≠ [] ∧
      0 < (ops.foldl TcpBuilder.apply (TcpBuilder.new name la)).interval ∧
      0 < (ops.foldl TcpBuilder.apply (TcpBuilder.new name la)).stun_interval) ∧
    (∀ (name la : String) (ops : List UdpOp),
      (ops.foldl UdpBuilder.apply (UdpBuilder.new name la)).stun_addrs ≠ [] ∧
      0 < (ops.foldl UdpBuilder.apply (UdpBuilder.new name la)).interval) ∧
    (∀ addrs : List String, addrs ≠ [] →
      addrs.length ≠ 0 ∧ ∀ i : Nat, rotate addrs.length i < addrs.length) ∧
    (∀ (addrs : List String) (events : List UdpEvent), addrs ≠ [] →
      (runU addrs (initU addrs) events).i < addrs.length ∧
      (addrs.get? ((runU addrs (initU addrs) events).i)).isSome = true) := by
  refine ⟨?_, ?_, ?_, ?_⟩
  · intro name la ops
    exact tcpBuilder_foldl_inv ops (TcpBuilder.new name la) (by simp [TcpBuilder.new])
      (by simp [TcpBuilder.new]) (by simp [TcpBuilder.new])
  · intro name la ops
    exact udpBuilder_foldl_inv ops (UdpBuilder.new name la) (by simp [UdpBuilder.new])
      (by simp [UdpBuilder.new])
  · intro addrs h
    have hlen : 0 < addrs.length := List.length_pos.mpr h
    exact ⟨by omega, fun i => Nat.mod_lt _ hlen⟩
  · intro addrs events h
    have hlt : (runU addrs (initU addrs) events).i < addrs.length :=
      runU_index_lt addrs events (initU addrs) h
        (by simp [initU, List.length_pos.mpr h])
    refine ⟨hlt, ?_⟩
    rw [List.get?_eq_get hlt]
    rfl

/-- C10 witness: empty or zero setter arguments leave the defaults, and
the rotated index on the default UDP pool stays within range. -/
theorem c10_builder_guards_safety_witness :
    (([TcpOp.stun [], TcpOp.interval 0, TcpOp.stunInterval 0].foldl
        TcpBuilder.apply (TcpBuilder.new "m" "0.0.0.0:100")).stun_addrs ≠ [] ∧
      0 < ([TcpOp.stun [], TcpOp.interval 0, TcpOp.stunInterval 0].foldl
        TcpBuilder.apply (TcpBuilder.new "m" "0.0.0.0:100")).interval ∧
      0 < ([TcpOp.stun [], TcpOp.interval 0, TcpOp.stunInterval 0].foldl
        TcpBuilder.apply (TcpBuilder.new "m" "0.0.0.0:100")).stun_interval) ∧
    (["s1", "s2"].get?
      ((runU ["s1", "s2"] (initU ["s1", "s2"])
        [.tick 1 true, .tick 2 true, .tick 3 true]).i)).isSome = true :=
  ⟨c10_builder_guards_safety.1 "m" "0.0.0.0:100"
      [TcpOp.stun [], TcpOp.interval 0, TcpOp.stunInterval 0],
   (c10_builder_guards_safety.2.2.2 ["s1", "s2"]
      [.tick 1 true, .tick 2 true, .tick 3 true] (by decide)).2⟩

end Nat2

